import Mathlib

/-!
Shallow embedding of the `Recorder` session state machine of
`midi_improv_hero` (`src/recorder.rs`), of the earlier two-mode recorder and
the monitor routine in `src/main.rs`, and of the external `Recording`
collaborator's contract.  Wall-clock instants are modelled as rationals; each
operation that reads the clock takes the current instant `now` as an explicit
argument.  `Instant::duration_since` saturates at zero, which `elapsed`
mirrors.  Operations that can panic (`unwrap` on an empty list, a failed
assertion, an out-of-range index) return `Option`, with `none` modelling the
panic.
-/

/-- Opaque MIDI payload carried by an event (`MidiMsg` in the source). -/
structure MidiMsg where
  data : Nat
deriving DecidableEq, Repr

/-- Speaker tag of a synthesizer message (`midi_fundsp::io::Speaker`). -/
inductive Speaker where
  | Left
  | Right
  | Both
deriving DecidableEq, Repr

/-- A synthesizer message: a MIDI payload plus a speaker tag
(`midi_fundsp::io::SynthMsg`). -/
structure SynthMsg where
  msg : MidiMsg
  speaker : Speaker
deriving DecidableEq, Repr

/-- Modelled from the spec: the external collaborator `Recording`
(`midi_note_recorder`) is "an ordered, append-only sequence of
(offset-in-seconds, MIDI-event) pairs plus a derived total duration". -/
structure Recording where
  events : List (ℚ × MidiMsg)
deriving DecidableEq, Repr

/-- Modelled from the spec: `Recording::default()`, the fresh empty recording. -/
def Recording.empty : Recording := ⟨[]⟩

/-- Modelled from the spec: `Recording::add_message` appends a
(timestamp, event) pair at the end. -/
def Recording.add_message (r : Recording) (t : ℚ) (m : MidiMsg) : Recording :=
  ⟨r.events ++ [(t, m)]⟩

/-- Modelled from the spec: `Recording::duration` reports the total duration
derived from the stored offsets. -/
def Recording.duration (r : Recording) : ℚ :=
  r.events.foldl (fun a p => max a p.1) 0

/-- `RecordingMode` of `src/recorder.rs`. -/
inductive RecordingMode where
  | Playthrough
  | Record
  | SoloOver
deriving DecidableEq, Repr

/-- `Instant::duration_since(earlier).as_secs_f64()`: the elapsed time from
`earlier` to `now`, saturating at zero when `earlier` is later. -/
def elapsed (now earlier : ℚ) : ℚ := max (now - earlier) 0

/-- Replace the last element of a list by `f` of it (`Vec::last_mut` followed
by a mutation); the empty list is unchanged. -/
def modifyLast (f : α → α) : List α → List α
  | [] => []
  | [a] => [f a]
  | a :: b :: rest => a :: modifyLast f (b :: rest)

/-- The `Recorder` of `src/recorder.rs`.  The two queue handles are thread
plumbing with no influence on the fields below and are omitted. -/
structure Recorder where
  timeout : ℚ
  mode : RecordingMode
  accompaniments : List Recording
  solos : List Recording
  solo_duration : Option ℚ
  last_msg : ℚ
  current_start : ℚ
  input_port_name : String
deriving DecidableEq, Repr

/-- `Recorder::new`: both instants are initialised to the creation time `t0`. -/
def Recorder.new (timeout : ℚ) (input_port_name : String) (t0 : ℚ) : Recorder :=
  { timeout := timeout
    mode := RecordingMode.Playthrough
    accompaniments := []
    solos := []
    solo_duration := none
    last_msg := t0
    current_start := t0
    input_port_name := input_port_name }

/-- `Recorder::len`. -/
def Recorder.len (r : Recorder) : Nat := r.accompaniments.length

/-- `Recorder::is_empty`. -/
def Recorder.is_empty (r : Recorder) : Bool := r.len == 0

/-- `Recorder::actively_recording`, evaluated at instant `now`. -/
def Recorder.actively_recording (r : Recorder) (now : ℚ) : Bool :=
  !r.accompaniments.isEmpty && decide (elapsed now r.last_msg < r.timeout)

/-- `Recorder::actively_soloing`. -/
def Recorder.actively_soloing (r : Recorder) : Bool :=
  r.solo_duration.isSome

/-- `Recorder::receive`, evaluated at instant `now`.  `none` models a panic of
one of the two `unwrap` calls on `last_mut()`. -/
def Recorder.receive (r : Recorder) (now : ℚ) (msg : SynthMsg) : Option Recorder :=
  match r.mode with
  | RecordingMode.Playthrough => some r
  | RecordingMode.Record =>
    let r1 := if r.actively_recording now then r
      else { r with accompaniments := r.accompaniments ++ [Recording.empty],
                    current_start := now }
    if r1.accompaniments.isEmpty then none
    else some { r1 with
      accompaniments := modifyLast
        (fun rec => rec.add_message (elapsed now r1.current_start) msg.msg)
        r1.accompaniments,
      last_msg := now }
  | RecordingMode.SoloOver =>
    match r.solo_duration with
    | none => some r
    | some duration =>
      let so_far := elapsed now r.current_start
      if duration < so_far then
        some { r with solo_duration := none, last_msg := now }
      else if r.solos.isEmpty then none
      else some { r with
        solos := modifyLast (fun rec => rec.add_message so_far msg.msg) r.solos,
        last_msg := now }

/-- `Recorder::start_solo_thread`, evaluated at instant `now`.  `none` models
the failed mode assertion or an out-of-range index panic.  The spawned
playback thread only touches the queues and the cloned recording, never the
`Recorder` fields, so it does not appear in the resulting state. -/
def Recorder.start_solo_thread (r : Recorder) (now : ℚ) (selected : Nat) :
    Option Recorder :=
  if r.mode = RecordingMode.SoloOver then
    match r.accompaniments.get? selected with
    | none => none
    | some backing =>
      some { r with
        solo_duration := some backing.duration,
        solos := r.solos ++ [Recording.empty],
        current_start := now }
  else none

/-- `Index<usize> for Recorder`: indexed lookup into `accompaniments`; `none`
models the out-of-range panic. -/
def Recorder.index (r : Recorder) (i : Nat) : Option Recording :=
  r.accompaniments.get? i

/-- Offsets of a list are non-negative and non-decreasing in order. -/
def offsetsMono : List ℚ → Bool
  | [] => true
  | [_] => true
  | a :: b :: rest => decide (a ≤ b) && offsetsMono (b :: rest)

/-- The relative-timestamp invariant for one stored recording: all offsets are
non-negative and monotonically non-decreasing in arrival order. -/
def recordingOk (rec : Recording) : Bool :=
  (rec.events.map Prod.fst).all (fun t => decide (0 ≤ t))
    && offsetsMono (rec.events.map Prod.fst)

/-- The relative-timestamp invariant over every stored recording of a
`Recorder`. -/
def recorderRecInv (r : Recorder) : Bool :=
  r.accompaniments.all recordingOk && r.solos.all recordingOk

/-- The solo-session structural invariant: whenever `solo_duration` is
present, `solos` is non-empty. -/
def soloInv (r : Recorder) : Prop :=
  r.solo_duration.isSome → r.solos ≠ []

instance (r : Recorder) : Decidable (soloInv r) := by
  unfold soloInv; infer_instance

/-- Recording mode of the earlier recorder in `src/main.rs` (two variants). -/
inductive MRecordingMode where
  | Playthrough
  | Record
deriving DecidableEq, Repr

/-- The earlier `Recorder` of `src/main.rs`. -/
structure MRecorder where
  recordings : List Recording
  timeout : ℚ
  last_msg : ℚ
  current_start : ℚ
  input_port_name : String
  mode : MRecordingMode
deriving DecidableEq, Repr

/-- `Recorder::in_recording_mode` of `src/main.rs`. -/
def MRecorder.in_recording_mode (r : MRecorder) : Bool :=
  decide (r.mode = MRecordingMode.Record)

/-- `Recorder::actively_recording` of `src/main.rs`, evaluated at `now`. -/
def MRecorder.actively_recording (r : MRecorder) (now : ℚ) : Bool :=
  r.in_recording_mode && !r.recordings.isEmpty
    && decide (elapsed now r.last_msg < r.timeout)

/-- `Recorder::receive` of `src/main.rs`, evaluated at `now`; `none` models a
panic of the `unwrap` on `last_mut()`. -/
def MRecorder.receive (r : MRecorder) (now : ℚ) (msg : SynthMsg) :
    Option MRecorder :=
  if r.in_recording_mode then
    let r1 := if r.actively_recording now then r
      else { r with recordings := r.recordings ++ [Recording.empty],
                    current_start := now }
    if r1.recordings.isEmpty then none
    else some { r1 with
      recordings := modifyLast
        (fun rec => rec.add_message (elapsed now r1.current_start) msg.msg)
        r1.recordings,
      last_msg := now }
  else some r

/-- One observable action of the monitor routine: pushing a copy of an event
onto the output queue, or delivering the event to `Recorder::receive` under
the lock. -/
inductive MAction where
  | pushOut (m : SynthMsg)
  | deliver (m : SynthMsg)
deriving DecidableEq, Repr

/-- The monitor routine of `src/main.rs` (`start_monitor_thread`): each loop
iteration first reads the shutdown flag (the next entry of `quits`) and stops
for good when it is true; otherwise it pops at most one event from the input
queue, pushes a copy onto the output queue, and then calls `receive` on it
under the lock.  Each input event is paired with the instant at which its
`receive` call reads the clock.  The result is the ordered action trace and
the final recorder state; the `quits` list bounds the observed iterations. -/
def monitorRun : List Bool → List (ℚ × SynthMsg) → MRecorder →
    List MAction × MRecorder
  | [], _, r => ([], r)
  | q :: qs, inp, r =>
    if q then ([], r)
    else
      match inp with
      | [] => monitorRun qs [] r
      | (t, m) :: rest =>
        let next := (MRecorder.receive r t m).getD r
        let res := monitorRun qs rest next
        (MAction.pushOut m :: MAction.deliver m :: res.1, res.2)

/-- A sample MIDI note event used by the concrete counterexample states. -/
def sampleMsg : SynthMsg := ⟨⟨60⟩, Speaker.Both⟩

/-- Concrete recorder state for the solo drop branch: a solo session over a
backing recording of duration 1 began at instant 0, and the clock now reads
past that duration. -/
def c3r : Recorder :=
  { timeout := 5
    mode := RecordingMode.SoloOver
    accompaniments := [⟨[(0, ⟨60⟩), (1, ⟨60⟩)]⟩]
    solos := [Recording.empty]
    solo_duration := some 1
    last_msg := 0
    current_start := 0
    input_port_name := "" }

/-- Concrete recorder state reached by the trace: record events at instants 0
and 2 with timeout 5, switch the mode to SoloOver, call
`start_solo_thread 0` at instant 3 (which resets `current_start`), then
switch the mode back to Record.  All its stored recordings satisfy the
relative-timestamp invariant. -/
def c6r : Recorder :=
  { timeout := 5
    mode := RecordingMode.Record
    accompaniments := [⟨[(0, ⟨60⟩), (2, ⟨60⟩)]⟩]
    solos := [Recording.empty]
    solo_duration := some 2
    last_msg := 2
    current_start := 3
    input_port_name := "" }

/-- The state `Recorder::receive` produces from `c6r` at instant 4: the gap
since `last_msg` is 2 < timeout, so the event is appended to the existing
accompaniment at offset `4 - 3 = 1`, after the stored offset 2. -/
def c6rAfter : Recorder :=
  { c6r with
    accompaniments := [⟨[(0, ⟨60⟩), (2, ⟨60⟩), (1, ⟨60⟩)]⟩]
    last_msg := 4 }

/-- Concrete recorder state with an empty accompaniment history, used to
instantiate the Record-mode theorems. -/
def w1r : Recorder :=
  { timeout := 5
    mode := RecordingMode.Record
    accompaniments := []
    solos := []
    solo_duration := none
    last_msg := 0
    current_start := 0
    input_port_name := "" }

/-- Variant of `c3r` whose solo session has already ended
(`solo_duration` absent). -/
def c10r : Recorder := { c3r with solo_duration := none }

/-- The state `Recorder::receive` produces from `c3r` at instant 1: the
elapsed time 1 does not exceed the solo duration 1, so the event is appended
to the open solo at offset 1. -/
def c3rRecv : Recorder :=
  { c3r with solos := [⟨[(1, ⟨60⟩)]⟩], last_msg := 1 }

/-- The state `Recorder::start_solo_thread` produces from `c3r` at instant 1
with index 0: the backing recording has duration 1. -/
def c3rSolo : Recorder :=
  { c3r with solos := [Recording.empty, Recording.empty], current_start := 1 }

/-- Concrete two-mode recorder of `src/main.rs` used by the monitor witness. -/
def mrec0 : MRecorder :=
  { recordings := []
    timeout := 5
    last_msg := 0
    current_start := 0
    input_port_name := ""
    mode := MRecordingMode.Record }

section
attribute [local semireducible] Rat.sub Rat.add

theorem modifyLast_concat (f : α → α) :
    ∀ (xs : List α) (a : α), modifyLast f (xs ++ [a]) = xs ++ [f a]
  | [], _ => rfl
  | [_], _ => rfl
  | x :: y :: xs, a => by
    have ih := modifyLast_concat f (y :: xs) a
    simpa [modifyLast] using ih

theorem modifyLast_length (f : α → α) :
    ∀ xs : List α, (modifyLast f xs).length = xs.length
  | [] => rfl
  | [_] => rfl
  | x :: y :: xs => by
    have ih := modifyLast_length f (y :: xs)
    simpa [modifyLast] using ih

theorem modifyLast_ne_nil (f : α → α) (xs : List α) (h : xs ≠ []) :
    modifyLast f xs ≠ [] := by
  intro hc
  apply h
  have := modifyLast_length f xs
  rw [hc] at this
  exact List.length_eq_zero.mp this.symm

/-- C1: in `Record` mode, `receive` starts a new accompaniment phrase
(appends a fresh `Recording` holding the event at offset 0 and resets
`phrase_start_time` to `now`) precisely when no accompaniment exists yet or
the gap since `last_event_time` is at least `timeout` (a gap exactly equal to
`timeout` starts a new phrase); otherwise it appends the event to the most
recent accompaniment at offset `now - phrase_start_time`; in both cases
`last_event_time` becomes `now`. -/
theorem receive_record_segmentation (r : Recorder) (now : ℚ) (msg : SynthMsg)
    (hmode : r.mode = RecordingMode.Record) :
    ((r.accompaniments = [] ∨ r.timeout ≤ elapsed now r.last_msg) →
      r.receive now msg = some { r with
        accompaniments := r.accompaniments ++ [Recording.empty.add_message 0 msg.msg],
        current_start := now,
        last_msg := now })
    ∧ (r.accompaniments ≠ [] → elapsed now r.last_msg < r.timeout →
      r.receive now msg = some { r with
        accompaniments := modifyLast
          (fun rec => rec.add_message (elapsed now r.current_start) msg.msg)
          r.accompaniments,
        last_msg := now }) := by
  obtain ⟨tmo, mo, acc, sol, sd, lm, cs, ipn⟩ := r
  simp only [] at hmode
  subst hmode
  constructor
  · intro h
    have hact : Recorder.actively_recording
        ⟨tmo, RecordingMode.Record, acc, sol, sd, lm, cs, ipn⟩ now = false := by
      rcases h with h | h
      · simp [Recorder.actively_recording, show acc = [] from h]
      · simp [Recorder.actively_recording,
          not_lt.mpr (show tmo ≤ elapsed now lm from h)]
    simp [Recorder.receive, hact, modifyLast_concat, Recording.add_message,
      elapsed, Recording.empty]
  · intro h1 h2
    have hact : Recorder.actively_recording
        ⟨tmo, RecordingMode.Record, acc, sol, sd, lm, cs, ipn⟩ now = true := by
      simp [Recorder.actively_recording, h1, h2]
    simp [Recorder.receive, hact, List.isEmpty_iff, h1]

/-- Witness for C1: from an empty history, the first event starts a phrase. -/
theorem receive_record_segmentation_witness :
    Recorder.receive w1r 1 sampleMsg = some { w1r with
      accompaniments := w1r.accompaniments ++ [Recording.empty.add_message 0 sampleMsg.msg],
      current_start := 1,
      last_msg := 1 } :=
  (receive_record_segmentation w1r 1 sampleMsg rfl).1 (Or.inl rfl)

/-- C2: in `SoloOver` mode with `solo_duration = some d`, `receive` at elapsed
time `e` since `phrase_start_time` clears `solo_duration` when `e > d` (for
any event, hence also for the synthetic all-notes-off termination event), and
otherwise (`e ≤ d`) appends the event to the most recent solos entry at
offset `e`. -/
theorem receive_solo_spec (r : Recorder) (now : ℚ) (msg : SynthMsg) (d : ℚ)
    (hmode : r.mode = RecordingMode.SoloOver) (hd : r.solo_duration = some d) :
    (d < elapsed now r.current_start →
      r.receive now msg = some { r with solo_duration := none, last_msg := now })
    ∧ (elapsed now r.current_start ≤ d → r.solos ≠ [] →
      r.receive now msg = some { r with
        solos := modifyLast
          (fun rec => rec.add_message (elapsed now r.current_start) msg.msg)
          r.solos,
        last_msg := now }) := by
  obtain ⟨tmo, mo, acc, sol, sd, lm, cs, ipn⟩ := r
  simp only [] at hmode hd
  subst hmode
  subst hd
  constructor
  · intro h
    simp [Recorder.receive, show d < elapsed now cs from h]
  · intro h1 h2
    simp [Recorder.receive, not_lt.mpr (show elapsed now cs ≤ d from h1),
      List.isEmpty_iff, show sol ≠ [] from h2]

/-- Witness for C2: an event at elapsed time exactly the solo duration is
appended (the boundary belongs to the append branch). -/
theorem receive_solo_spec_witness :
    Recorder.receive c3r 1 sampleMsg = some { c3r with
      solos := modifyLast
        (fun rec => rec.add_message (elapsed 1 c3r.current_start) sampleMsg.msg)
        c3r.solos,
      last_msg := 1 } :=
  (receive_solo_spec c3r 1 sampleMsg 1 rfl rfl).2 (by decide) (by decide)

/-- C3 counterexample: in the drop branch (elapsed time past the solo
duration) the code also updates `last_event_time`, so the cleared
`solo_duration` is not the only state change: from `c3r` (whose
`last_event_time` is 0) an event at instant 2 yields `last_event_time = 2`. -/
theorem receive_solo_drop_counterexample :
    c3r.solo_duration = some 1
    ∧ 1 < elapsed 2 c3r.current_start
    ∧ Recorder.receive c3r 2 sampleMsg
        = some { c3r with solo_duration := none, last_msg := 2 }
    ∧ c3r.last_msg ≠ 2 := by decide

/-- C3 amended: in `SoloOver` mode with `solo_duration` present, when the
elapsed time exceeds it, the event is dropped and the state changes are
exactly clearing `solo_duration` and setting `last_event_time` to `now`;
`solos`, `accompaniments`, `mode`, `timeout` and `phrase_start_time` are
unchanged. -/
theorem receive_solo_drop_frame (r : Recorder) (now : ℚ) (msg : SynthMsg)
    (d : ℚ) (hmode : r.mode = RecordingMode.SoloOver)
    (hd : r.solo_duration = some d) (hgt : d < elapsed now r.current_start) :
    r.receive now msg = some { r with solo_duration := none, last_msg := now } := by
  obtain ⟨tmo, mo, acc, sol, sd, lm, cs, ipn⟩ := r
  simp only [] at hmode hd
  subst hmode
  subst hd
  simp [Recorder.receive, show d < elapsed now cs from hgt]

/-- Witness for the amended C3. -/
theorem receive_solo_drop_frame_witness :
    Recorder.receive c3r 2 sampleMsg
      = some { c3r with solo_duration := none, last_msg := 2 } :=
  receive_solo_drop_frame c3r 2 sampleMsg 1 rfl rfl (by decide)

/-- C5: under the preconditions `mode = SoloOver` and `index < len()`,
`start_solo` records the duration of the accompaniment at that index into
`solo_duration`, appends exactly one new empty entry to `solos`, and resets
`phrase_start_time` to `now`; `accompaniments`, `mode` and `timeout` are
unchanged. -/
theorem start_solo_spec (r : Recorder) (now : ℚ) (i : Nat) (backing : Recording)
    (hmode : r.mode = RecordingMode.SoloOver)
    (hi : r.accompaniments.get? i = some backing) :
    r.start_solo_thread now i = some { r with
      solo_duration := some backing.duration,
      solos := r.solos ++ [Recording.empty],
      current_start := now } := by
  obtain ⟨tmo, mo, acc, sol, sd, lm, cs, ipn⟩ := r
  simp only [] at hmode hi
  subst hmode
  have hi2 : acc[i]? = some backing := by
    rw [← List.get?_eq_getElem?]
    exact hi
  simp [Recorder.start_solo_thread, hi2]

/-- Witness for C5. -/
theorem start_solo_spec_witness :
    Recorder.start_solo_thread c3r 5 0 = some { c3r with
      solo_duration := some (Recording.duration ⟨[(0, ⟨60⟩), (1, ⟨60⟩)]⟩),
      solos := c3r.solos ++ [Recording.empty],
      current_start := 5 } :=
  start_solo_spec c3r 5 0 ⟨[(0, ⟨60⟩), (1, ⟨60⟩)]⟩ rfl rfl

/-- C7: calling `start_solo` in any mode other than `SoloOver` terminates
abruptly (modelled by `none`), and an out-of-range index makes both the
public indexed accessor and `start_solo` terminate abruptly rather than
return a sentinel. -/
theorem abrupt_error_contract (r : Recorder) (now : ℚ) (i : Nat) :
    (r.mode ≠ RecordingMode.SoloOver → r.start_solo_thread now i = none)
    ∧ (r.len ≤ i → r.index i = none ∧ r.start_solo_thread now i = none) := by
  constructor
  · intro h
    simp [Recorder.start_solo_thread, h]
  · intro h
    have hnone : r.accompaniments.get? i = none :=
      List.get?_eq_none.mpr h
    refine ⟨hnone, ?_⟩
    have hnone2 : r.accompaniments[i]? = none := by
      rw [← List.get?_eq_getElem?]
      exact hnone
    by_cases hm : r.mode = RecordingMode.SoloOver
    · simp [Recorder.start_solo_thread, hm, hnone2]
    · simp [Recorder.start_solo_thread, hm]

/-- Witness for C7: `w1r` is in `Record` mode with an empty history. -/
theorem abrupt_error_contract_witness :
    Recorder.start_solo_thread w1r 0 0 = none
    ∧ (Recorder.index w1r 0 = none ∧ Recorder.start_solo_thread w1r 0 0 = none) :=
  ⟨(abrupt_error_contract w1r 0 0).1 (by decide),
   (abrupt_error_contract w1r 0 0).2 (by decide)⟩

/-- C10: in `SoloOver` mode with `solo_duration` absent, `receive` is a
complete no-op: the state is returned unchanged, every field included. -/
theorem receive_solo_ended_noop (r : Recorder) (now : ℚ) (msg : SynthMsg)
    (hmode : r.mode = RecordingMode.SoloOver) (hd : r.solo_duration = none) :
    r.receive now msg = some r := by
  obtain ⟨tmo, mo, acc, sol, sd, lm, cs, ipn⟩ := r
  simp only [] at hmode hd
  subst hmode
  subst hd
  simp [Recorder.receive]

/-- Witness for C10. -/
theorem receive_solo_ended_noop_witness :
    Recorder.receive c10r 2 sampleMsg = some c10r :=
  receive_solo_ended_noop c10r 2 sampleMsg rfl rfl

/-- C4: `receive` in `Playthrough` mode changes no field; `receive` in any
mode other than `Record` leaves `accompaniments` unchanged, and so does
`start_solo`: `accompaniments` gains entries only through a `Record`-mode
`receive`. -/
theorem mode_isolation (r : Recorder) (now : ℚ) (msg : SynthMsg) (i : Nat) :
    (r.mode = RecordingMode.Playthrough → r.receive now msg = some r)
    ∧ (r.mode ≠ RecordingMode.Record →
        ∀ r2, r.receive now msg = some r2 → r2.accompaniments = r.accompaniments)
    ∧ (∀ r2, r.start_solo_thread now i = some r2 →
        r2.accompaniments = r.accompaniments) := by
  refine ⟨?_, ?_, ?_⟩
  · intro h
    obtain ⟨tmo, mo, acc, sol, sd, lm, cs, ipn⟩ := r
    simp only [] at h
    subst h
    simp [Recorder.receive]
  · intro h r2 hr
    obtain ⟨tmo, mo, acc, sol, sd, lm, cs, ipn⟩ := r
    cases mo with
    | Playthrough =>
      simp only [Recorder.receive] at hr
      injection hr with h2
      subst h2
      rfl
    | Record => exact absurd rfl h
    | SoloOver =>
      cases sd with
      | none =>
        simp only [Recorder.receive] at hr
        injection hr with h2
        subst h2
        rfl
      | some d =>
        simp only [Recorder.receive] at hr
        split at hr
        · injection hr with h2
          subst h2
          rfl
        · split at hr
          · exact absurd hr (by simp)
          · injection hr with h2
            subst h2
            rfl
  · intro r2 hr
    simp only [Recorder.start_solo_thread] at hr
    split at hr
    · split at hr
      · exact absurd hr (by simp)
      · injection hr with h2
        subst h2
        rfl
    · exact absurd hr (by simp)

/-- Witness for C4: a `Playthrough` event is a no-op. -/
theorem mode_isolation_witness :
    Recorder.receive (Recorder.new 5 "" 0) 1 sampleMsg
      = some (Recorder.new 5 "" 0) :=
  (mode_isolation (Recorder.new 5 "" 0) 1 sampleMsg 0).1 rfl

/-- C6 refutation: the relative-timestamp invariant is not preserved by every
`receive` call.  From the freshly created recorder, the host-visible mode
writes together with `receive` at instants 0 and 2, `start_solo_thread` at
instant 3 and a final mode write reach the state `c6r`, whose stored
recordings all satisfy the invariant; the `receive` call at instant 4 then
appends offset 1 after the stored offset 2 inside the same accompaniment,
because the silence gap is measured from `last_event_time` while the offset
is measured from the `phrase_start_time` that `start_solo_thread` reset. -/
theorem relative_timestamp_violation :
    recorderRecInv c6r = true
    ∧ ((Recorder.receive
          { Recorder.new 5 "" 0 with mode := RecordingMode.Record }
          0 sampleMsg).bind
        (fun rA => (Recorder.receive rA 2 sampleMsg).bind
          (fun rB => Option.map
            (fun rC => { rC with mode := RecordingMode.Record })
            (Recorder.start_solo_thread
              { rB with mode := RecordingMode.SoloOver } 3 0))))
      = some c6r
    ∧ Recorder.receive c6r 4 sampleMsg = some c6rAfter
    ∧ recorderRecInv c6rAfter = false := by decide

/-- C9: `receive` never hits a `None` in its `unwrap` calls: whenever the
solo-session invariant (a present `solo_duration` implies a non-empty
`solos`) holds, `receive` succeeds; the invariant is preserved by `receive`,
established by every successful `start_solo`, and holds in the initial
state. -/
theorem receive_unwrap_safe (r r1 r2 : Recorder) (now : ℚ) (msg : SynthMsg)
    (i : Nat) (tq t0 : ℚ) (port : String) :
    (soloInv r → (r.receive now msg).isSome)
    ∧ (soloInv r → r.receive now msg = some r1 → soloInv r1)
    ∧ (r.start_solo_thread now i = some r2 → soloInv r2)
    ∧ soloInv (Recorder.new tq port t0) := by
  refine ⟨?_, ?_, ?_, ?_⟩
  · intro hInv
    obtain ⟨tmo, mo, acc, sol, sd, lm, cs, ipn⟩ := r
    cases mo with
    | Playthrough => simp [Recorder.receive]
    | Record =>
      by_cases hacc : acc = []
      · subst hacc
        simp [Recorder.receive, Recorder.actively_recording]
      · simp only [Recorder.receive]
        split
        · simp [List.isEmpty_iff, hacc]
        · simp [List.isEmpty_iff]
    | SoloOver =>
      cases sd with
      | none => simp [Recorder.receive]
      | some d =>
        have hsol : sol ≠ [] := hInv (by simp)
        simp only [Recorder.receive]
        split
        · simp
        · simp [List.isEmpty_iff, hsol]
  · intro hInv hr
    obtain ⟨tmo, mo, acc, sol, sd, lm, cs, ipn⟩ := r
    cases mo with
    | Playthrough =>
      simp only [Recorder.receive] at hr
      injection hr with h2
      subst h2
      exact hInv
    | Record =>
      simp only [Recorder.receive] at hr
      split at hr
      · split at hr
        · exact absurd hr (by simp)
        · injection hr with h2
          subst h2
          exact hInv
      · split at hr
        · exact absurd hr (by simp)
        · injection hr with h2
          subst h2
          exact hInv
    | SoloOver =>
      cases sd with
      | none =>
        simp only [Recorder.receive] at hr
        injection hr with h2
        subst h2
        exact hInv
      | some d =>
        simp only [Recorder.receive] at hr
        split at hr
        · injection hr with h2
          subst h2
          intro hs
          exact absurd hs (by simp)
        · split at hr
          · exact absurd hr (by simp)
          · rename_i hne
            injection hr with h2
            subst h2
            intro _
            refine modifyLast_ne_nil _ _ ?_
            intro hc
            exact hne (by simp [hc])
  · intro hr
    simp only [Recorder.start_solo_thread] at hr
    split at hr
    · split at hr
      · exact absurd hr (by simp)
      · injection hr with h2
        subst h2
        intro _
        simp
    · exact absurd hr (by simp)
  · intro hs
    exact absurd hs (by simp [Recorder.new])

/-- Witness for C9, instantiated at the open solo session `c3r`. -/
theorem receive_unwrap_safe_witness :
    (Recorder.receive c3r 1 sampleMsg).isSome
    ∧ soloInv c3rRecv
    ∧ soloInv c3rSolo
    ∧ soloInv (Recorder.new 5 "" 0) := by
  have th := receive_unwrap_safe c3r c3rRecv c3rSolo 1 sampleMsg 0 5 0 ""
  exact ⟨th.1 (by decide), th.2.1 (by decide) (by decide),
    th.2.2.1 (by decide), th.2.2.2⟩

theorem monitorRun_nil_input : ∀ (n : Nat) (r : MRecorder),
    monitorRun (List.replicate n false) [] r = ([], r)
  | 0, _ => rfl
  | n + 1, r => by
    simp only [List.replicate, monitorRun, if_neg Bool.false_ne_true]
    exact monitorRun_nil_input n r

theorem monitorRun_replicate_false :
    ∀ (inp : List (ℚ × SynthMsg)) (n : Nat) (r : MRecorder),
      inp.length ≤ n →
      monitorRun (List.replicate n false) inp r
        = (inp.flatMap (fun p => [MAction.pushOut p.2, MAction.deliver p.2]),
           inp.foldl (fun s p => (MRecorder.receive s p.1 p.2).getD s) r)
  | [], n, r, _ => by simpa using monitorRun_nil_input n r
  | (t, m) :: rest, n + 1, r, h => by
    have ih := monitorRun_replicate_false rest n
      ((MRecorder.receive r t m).getD r) (by simpa using h)
    simp only [List.replicate, monitorRun, if_neg Bool.false_ne_true, ih,
      List.flatMap_cons, List.foldl_cons]
    rfl

/-- C8: the monitor routine never runs another loop body once the shutdown
flag is observed true, and while the flag stays false it processes the input
queue in FIFO order, emitting for each popped event the copy onto the output
queue strictly before the `receive` call on the locked recorder, whose final
state is the left fold of `receive` over the popped events in order. -/
theorem monitor_fifo_and_shutdown (qs : List Bool)
    (inp : List (ℚ × SynthMsg)) (r : MRecorder) (n : Nat)
    (h : inp.length ≤ n) :
    monitorRun (true :: qs) inp r = ([], r)
    ∧ monitorRun (List.replicate n false) inp r
      = (inp.flatMap (fun p => [MAction.pushOut p.2, MAction.deliver p.2]),
         inp.foldl (fun s p => (MRecorder.receive s p.1 p.2).getD s) r) :=
  ⟨by simp [monitorRun], monitorRun_replicate_false inp n r h⟩

/-- Witness for C8 with a one-event input queue. -/
theorem monitor_fifo_and_shutdown_witness :
    monitorRun (true :: []) [(1, sampleMsg)] mrec0 = ([], mrec0)
    ∧ monitorRun (List.replicate 2 false) [(1, sampleMsg)] mrec0
      = ([(1, sampleMsg)].flatMap
          (fun p => [MAction.pushOut p.2, MAction.deliver p.2]),
         [(1, sampleMsg)].foldl
          (fun s p => (MRecorder.receive s p.1 p.2).getD s) mrec0) :=
  monitor_fifo_and_shutdown [] [(1, sampleMsg)] mrec0 2 (by decide)

end
